import Mathlib

/-!
Shallow embedding of the deflake toolkit's two core engines:

* the Selector Grounding & Scoring Engine
  (`src/packages/deflake/src/core/mcp.ts`,
   `src/packages/deflake/src/core/selectors.ts`), and
* the Execution Classification Engine
  (`src/unnamed/part_001` report generator, `src/unnamed/part_003`
   MCP reporter, `src/unnamed/part_008` web server, and
   `src/packages/deflake/src/utils/flakinessAnalyzer.ts`).

Statuses and selectors are kept as strings, exactly as the JavaScript
source compares them; fractional scores are rationals; the asynchronous
page interactions are modelled by explicit state records describing what
the live page would answer (element count, visibility, enabled state)
and which attempts would throw.
-/

/-- JavaScript truthiness of an optional string field: `undefined` and the
empty string are falsy, every other string is truthy. -/
def jsTruthy : Option String → Bool
  | none => false
  | some s => !(s == "")

/-- The string value read from an optional field after a truthiness check
(the JS template literal reads the raw property). -/
def jsStr : Option String → String
  | none => ""
  | some s => s

/-- `Target` from `mcp.ts`: a stable key plus optional descriptive hints. -/
structure Target where
  key : String
  role : Option String := none
  label : Option String := none
  name : Option String := none
  placeholder : Option String := none
  testId : Option String := none
  fallback : Option String := none
deriving DecidableEq

/-- `SelectorCandidate` from `mcp.ts`; the live `Locator` is identified by
its selector expression, which is all the grounding policy inspects. -/
structure SelectorCandidate where
  selector : String
  method : String
  score : ℚ
deriving DecidableEq

/-- Insertion step of a stable descending sort by a rational score,
modelling `Array.prototype.sort` with comparator `(a, b) => b.score - a.score`
(a stable sort; an element moves ahead only on strictly larger score). -/
def insertByScoreDesc {α : Type} (f : α → ℚ) (c : α) : List α → List α
  | [] => [c]
  | d :: ds => if f d < f c then c :: d :: ds else d :: insertByScoreDesc f c ds

/-- Stable descending sort by score (insertion sort). -/
def sortByScoreDesc {α : Type} (f : α → ℚ) : List α → List α
  | [] => []
  | c :: cs => insertByScoreDesc f c (sortByScoreDesc f cs)

/-- `MCP.generateStructuralSelector`: a role-plus-text CSS expression, or
`null` when the target has no (truthy) role. -/
def generateStructuralSelector (t : Target) : Option String :=
  if jsTruthy t.role then
    some (jsStr t.role ++ ":has-text(\"" ++
      (if jsTruthy t.name then jsStr t.name
       else if jsTruthy t.label then jsStr t.label else "") ++ "\")")
  else none

/-- The candidate list of `MCP.generateSelectorCandidates` in push order,
before the final sort: role+name, label, placeholder, test id, scoped
fallback, then the derived structural selector. -/
def generateSelectorCandidatesRaw (t : Target) : List SelectorCandidate :=
  (if jsTruthy t.role && jsTruthy t.name then
    [{ selector := "getByRole(\x27" ++ jsStr t.role ++ "\x27, \x7b name: \x27" ++
         jsStr t.name ++ "\x27 \x7d)",
       method := "getByRole", score := 0.95 }] else []) ++
  (if jsTruthy t.label then
    [{ selector := "getByLabel(\x27" ++ jsStr t.label ++ "\x27)",
       method := "getByLabel", score := 0.90 }] else []) ++
  (if jsTruthy t.placeholder then
    [{ selector := "getByPlaceholder(\x27" ++ jsStr t.placeholder ++ "\x27)",
       method := "getByPlaceholder", score := 0.85 }] else []) ++
  (if jsTruthy t.testId then
    [{ selector := "[data-testid=\"" ++ jsStr t.testId ++ "\"]",
       method := "data-testid", score := 0.80 }] else []) ++
  (if jsTruthy t.fallback then
    [{ selector := jsStr t.fallback, method := "scoped-css", score := 0.70 }] else []) ++
  (match generateStructuralSelector t with
   | some s => [{ selector := s, method := "structural-css", score := 0.50 }]
   | none => [])

/-- `MCP.generateSelectorCandidates`: push the applicable candidates, then
sort by score, highest first. -/
def generateSelectorCandidates (t : Target) : List SelectorCandidate :=
  sortByScoreDesc (fun c => c.score) (generateSelectorCandidatesRaw t)

/-- The `ThresholdNotMet` failure of `MCP.ground`, carrying the reported
best score (`candidates[0]?.score || 0`). -/
structure GroundFailure where
  bestScore : ℚ
deriving DecidableEq

/-- `MCP.ground`: pick the first candidate of the sorted list whose score
reaches the threshold; otherwise fail, reporting the top score (0 when the
candidate list is empty). -/
def ground (scoreThreshold : ℚ) (t : Target) : Except GroundFailure SelectorCandidate :=
  let candidates := generateSelectorCandidates t
  match candidates.find? (fun c => decide (scoreThreshold ≤ c.score)) with
  | some c => .ok c
  | none =>
    .error ⟨match candidates with
            | [] => 0
            | c :: _ => c.score⟩

/-- The defaulting of `scoreThreshold` in the `MCP` constructor
(`options.scoreThreshold || 0.8`; the number 0 is falsy in JS). -/
def scoreThresholdInit (o : Option ℚ) : ℚ :=
  match o with
  | some q => if q = 0 then 0.8 else q
  | none => 0.8

/-- The defaulting of `enableAutoHeal` in the `MCP` constructor
(`options.enableAutoHeal || true`; `false` and `undefined` are falsy, so
the disjunction with `true` is taken). -/
def enableAutoHealInit (o : Option Bool) : Bool :=
  match o with
  | some b => b || true
  | none => true

/-- The live state a locator would observe on the current page: how many
elements it matches, and whether the (unique) match is visible / enabled. -/
structure LocatorState where
  count : Nat
  visible : Bool
  enabled : Bool
deriving DecidableEq

/-- The distinct failures `MCP.validate` can raise: the uniqueness check
throws an error carrying the offending match count (so the zero-match and
multi-match failures are distinguishable), then the visibility assertion,
then the enabled-state assertion. -/
inductive ValidateError where
  | countMismatch (n : Nat)
  | notVisible
  | notEnabled
deriving DecidableEq

/-- `MCP.validate`: uniqueness first (`count !== 1` throws with the count),
then `toBeVisible`, then `toBeEnabled`; the trailing attribute reads only log. -/
def validate (st : LocatorState) : Except ValidateError Unit :=
  if st.count ≠ 1 then .error (.countMismatch st.count)
  else if st.visible = false then .error .notVisible
  else if st.enabled = false then .error .notEnabled
  else .ok ()

/-- Outcome model for one `safeClick`/`safeFill` call: which error (if any)
the first validate-plus-interaction attempt would throw, and which error
(if any) the recovery attempt (`waitFor` visible within 5000 ms, then the
retried interaction) would throw. -/
structure HealWorld where
  firstError : Option String
  healError : Option String
deriving DecidableEq

/-- `MCP.autoHealClick`: wait for visibility and click once more; on failure
rethrow the error of this recovery attempt. -/
def autoHealClickRun (w : HealWorld) : Except String Unit :=
  match w.healError with
  | none => .ok ()
  | some e => .error e

/-- `MCP.autoHealFill`: wait for visibility and fill once more; on failure
rethrow the error of this recovery attempt. -/
def autoHealFillRun (value : String) (w : HealWorld) : Except String Unit :=
  match w.healError with
  | none => .ok ()
  | some e => .error e

/-- `MCP.safeClick`, instrumented with the number of recovery attempts made:
validate and click; on a throw, either run the single auto-heal attempt
(when `enableAutoHeal` is set) or rethrow the caught error. -/
def safeClickRun (enableAutoHeal : Bool) (w : HealWorld) : Except String Unit × Nat :=
  match w.firstError with
  | none => (.ok (), 0)
  | some e => if enableAutoHeal then (autoHealClickRun w, 1) else (.error e, 0)

/-- `MCP.safeFill`, instrumented like `safeClickRun`. -/
def safeFillRun (enableAutoHeal : Bool) (value : String) (w : HealWorld) :
    Except String Unit × Nat :=
  match w.firstError with
  | none => (.ok (), 0)
  | some e => if enableAutoHeal then (autoHealFillRun value w, 1) else (.error e, 0)

/-- `a == b` prefix test on character lists. -/
def charsPrefix : List Char → List Char → Bool
  | [], _ => true
  | _ :: _, [] => false
  | a :: as, b :: bs => a == b && charsPrefix as bs

/-- Contiguous containment test on character lists. -/
def charsContains (pat : List Char) : List Char → Bool
  | [] => charsPrefix pat []
  | b :: bs => charsPrefix pat (b :: bs) || charsContains pat bs

/-- JavaScript `s.includes(pat)`. -/
def strIncludes (s pat : String) : Bool :=
  charsContains pat.toList s.toList

/-- `SelectorScore` from `selectors.ts`. -/
structure SelectorScore where
  selector : String
  score : ℚ
  method : String
  reason : String
deriving DecidableEq

/-- What the live page answers for each raw selector string during scoring:
whether evaluating it throws, its match count, and visibility/enabled state
of the match. -/
structure PageModel where
  throws : String → Bool
  count : String → Nat
  visible : String → Bool
  enabled : String → Bool

/-- `SelectorUtils.scoreSelectors` for a single selector: zero matches score
0, several matches score 0.3, a unique match starts from 1.0, loses 0.3
when hidden and 0.2 when disabled, gains 0.1 for a semantic
(`getByRole`/`getByLabel`) selector, and is clamped below by 0; a thrown
evaluation scores 0. -/
def scoreSelector (pg : PageModel) (selector : String) : SelectorScore :=
  if pg.throws selector then
    { selector := selector, score := 0, method := "error", reason := "thrown" }
  else if pg.count selector = 0 then
    { selector := selector, score := 0, method := "not-found", reason := "Element not found" }
  else if 1 < pg.count selector then
    { selector := selector, score := 0.3, method := "multiple-elements",
      reason := "Found " ++ toString (pg.count selector) ++ " elements" }
  else
    let isVisible := pg.visible selector
    let isEnabled := pg.enabled selector
    let semantic := strIncludes selector "getByRole" || strIncludes selector "getByLabel"
    let s1 : ℚ := if isVisible = false then 1 - 0.3 else 1
    let s2 : ℚ := if isEnabled = false then s1 - 0.2 else s1
    let s3 : ℚ := if semantic then s2 + 0.1 else s2
    { selector := selector,
      score := max 0 s3,
      method :=
        if semantic then "semantic"
        else if isEnabled = false then "not-enabled"
        else if isVisible = false then "not-visible"
        else "excellent",
      reason :=
        if semantic then "Semantic selector (bonus)"
        else if isEnabled = false then "Element not enabled"
        else if isVisible = false then "Element not visible"
        else "Perfect match" }

/-- `SelectorUtils.scoreSelectors`: score each selector against the page and
return the scores sorted descending. -/
def scoreSelectors (pg : PageModel) (selectors : List String) : List SelectorScore :=
  sortByScoreDesc (fun s => s.score) (selectors.map (scoreSelector pg))

/-- JavaScript `Math.round`: round half toward positive infinity. -/
def jsRound (q : ℚ) : ℤ := ⌊q + 1 / 2⌋

/-- `FlakinessAnalyzer.calculateSelectorScore` (`flakinessAnalyzer.ts`):
start at 10; minus 3 when the last result failed, minus 1.5 per retry
(`tests.length - 1` when above one), minus 1 for a search/cart title;
then `Math.max(0, Math.round(score * 10) / 10)`. -/
def analyzerSelectorScore (failed : Bool) (numResults : Nat) (complexTitle : Bool) : ℚ :=
  let s0 : ℚ := 10
  let s1 := if failed then s0 - 3 else s0
  let s2 := if 1 < numResults then s1 - ((numResults - 1 : ℕ) : ℚ) * 1.5 else s1
  let s3 := if complexTitle then s2 - 1 else s2
  max 0 ((jsRound (s3 * 10) : ℚ) / 10)

/-- `MCPReporter.calculateSelectorScoreFromSelector` (`src/unnamed/part_003`):
start at 10; minus 3 for a failed status, minus 1 each for a compound
selector (space), a direct-child combinator, or a very long selector,
minus 0.5 for an attribute selector; plus 1 for `data-testid` and 0.5 for
`id=`; finally clamped into `[0, 10]`. -/
def reporterSelectorScore (selector status : String) : ℚ :=
  let s0 : ℚ := 10
  let s1 := if status == "failed" then s0 - 3 else s0
  let s2 := if strIncludes selector " " then s1 - 1 else s1
  let s3 := if strIncludes selector ">" then s2 - 1 else s2
  let s4 := if strIncludes selector "[" && strIncludes selector "]" then s3 - 0.5 else s3
  let s5 := if 100 < selector.length then s4 - 1 else s4
  let s6 := if strIncludes selector "data-testid" then s5 + 1 else s5
  let s7 := if strIncludes selector "id=" then s6 + 0.5 else s6
  max 0 (min 10 s7)

/-- `processTest` from `src/unnamed/part_001`, classification part: given a
test's ordered attempt statuses, return the consolidated per-environment
status (`null` when there are no results). Any `"flaky"` record wins;
with retries, compare first and last status; without retries, normalize
the single status. -/
def processTestStatus : List String → Option String
  | [] => none
  | first :: rest =>
    let lastStatus := rest.getLastD first
    let retries := rest.length
    if (first :: rest).any (fun r => r == "flaky") then some "flaky"
    else if 0 < retries then
      if first == "failed" && lastStatus == "passed" then some "flaky"
      else if first == "failed" && lastStatus == "failed" then some "failed"
      else if lastStatus == "passed" || lastStatus == "expected" then some "passed"
      else if lastStatus == "failed" || lastStatus == "unexpected" then some "failed"
      else some lastStatus
    else
      if lastStatus == "passed" || lastStatus == "expected" then some "passed"
      else if lastStatus == "failed" || lastStatus == "unexpected" then some "failed"
      else some lastStatus

/-- The consolidation step of the nested-suite path of `analyzeTestResults`
(`src/unnamed/part_001`, lines 74-82): flaky if either side is flaky, else
failed if either side is failed, else passed when both passed, otherwise
keep the existing status. -/
def mergeNested (existing incoming : String) : String :=
  if incoming == "flaky" || existing == "flaky" then "flaky"
  else if incoming == "failed" || existing == "failed" then "failed"
  else if incoming == "passed" && existing == "passed" then "passed"
  else existing

/-- The consolidation step of the direct-spec path of `analyzeTestResults`
(`src/unnamed/part_001`, lines 131-136): an incoming failed always wins;
an incoming flaky wins unless the existing status is failed. -/
def mergeDirect (existing incoming : String) : String :=
  if incoming == "failed" then "failed"
  else if incoming == "flaky" && !(existing == "failed") then "flaky"
  else existing

/-- Cross-environment consolidation of one test name through the
nested-suite path: the first environment's classification seeds the map
entry and later ones are merged with `mergeNested`. -/
def consolidateNested (c : String) (cs : List String) : String :=
  cs.foldl mergeNested c

/-- Cross-environment consolidation of one test name through the
direct-spec path, seeded the same way. -/
def consolidateDirect (c : String) (cs : List String) : String :=
  cs.foldl mergeDirect c

/-- The whole nested-suite reduction for one test name: classify each
environment's attempt sequence with `processTestStatus` (empty sequences
are skipped, as `processTest` returns `null`), then fold the
classifications in supply order. -/
def consolidateTests (seqs : List (List String)) : Option String :=
  match seqs.filterMap processTestStatus with
  | [] => none
  | c :: cs => some (consolidateNested c cs)

/-- Same reduction along the direct-spec path. -/
def consolidateTestsDirect (seqs : List (List String)) : Option String :=
  match seqs.filterMap processTestStatus with
  | [] => none
  | c :: cs => some (consolidateDirect c cs)

/-- Per-test-entry status of `analyzeTestResults` in `src/unnamed/part_008`
(lines 420-433): flaky if any attempt is flaky, else failed if any attempt
failed, else passed if any attempt passed; otherwise the map entry is left
unchanged (`none`). -/
def part8TestStatus (results : List String) : Option String :=
  match results with
  | [] => none
  | _ =>
    if results.any (fun r => r == "flaky") then some "flaky"
    else if results.any (fun r => r == "failed" || r == "unexpected") then some "failed"
    else if results.any (fun r => r == "passed" || r == "expected") then some "passed"
    else none

/-- Cross-environment consolidation in `src/unnamed/part_008`: each test
entry that produces a status overwrites the map entry (seeded `"unknown"`)
unconditionally. -/
def consolidatePart8 (seqs : List (List String)) : String :=
  seqs.foldl (fun acc seq => (part8TestStatus seq).getD acc) "unknown"

/-! ### Ordering facts about the candidate generator -/

lemma insertByScoreDesc_of_forall_lt {α : Type} (f : α → ℚ) (c : α) (l : List α)
    (h : ∀ d ∈ l, f d < f c) : insertByScoreDesc f c l = c :: l := by
  cases l with
  | nil => rfl
  | cons d ds => simp [insertByScoreDesc, h d (by simp)]

lemma sortByScoreDesc_eq_self {α : Type} (f : α → ℚ) (l : List α)
    (h : l.Pairwise (fun a b => f b < f a)) : sortByScoreDesc f l = l := by
  induction l with
  | nil => rfl
  | cons c cs ih =>
    rw [sortByScoreDesc, ih h.of_cons,
      insertByScoreDesc_of_forall_lt f c cs (List.pairwise_cons.mp h).1]

lemma insertByScoreDesc_perm {α : Type} (f : α → ℚ) (c : α) (l : List α) :
    (insertByScoreDesc f c l).Perm (c :: l) := by
  induction l with
  | nil => exact List.Perm.refl _
  | cons d ds ih =>
    rw [insertByScoreDesc]
    split
    · exact List.Perm.refl _
    · exact (ih.cons d).trans (List.Perm.swap c d ds)

lemma sortByScoreDesc_perm {α : Type} (f : α → ℚ) (l : List α) :
    (sortByScoreDesc f l).Perm l := by
  induction l with
  | nil => exact List.Perm.refl _
  | cons c cs ih =>
    exact (insertByScoreDesc_perm f c (sortByScoreDesc f cs)).trans (ih.cons c)

lemma generateSelectorCandidatesRaw_scores_sublist (t : Target) :
    List.Sublist ((generateSelectorCandidatesRaw t).map (fun c => c.score))
      [(0.95 : ℚ), 0.90, 0.85, 0.80, 0.70, 0.50] := by
  have hm : ([(0.95 : ℚ), 0.90, 0.85, 0.80, 0.70, 0.50] : List ℚ) =
      [0.95] ++ ([0.90] ++ ([0.85] ++ ([0.80] ++ ([0.70] ++ [0.50])))) := rfl
  rw [hm]
  unfold generateSelectorCandidatesRaw
  simp only [List.map_append, List.append_assoc]
  refine List.Sublist.append ?_ (List.Sublist.append ?_ (List.Sublist.append ?_
    (List.Sublist.append ?_ (List.Sublist.append ?_ ?_)))) <;>
    (split <;> simp)

lemma generateSelectorCandidatesRaw_pairwise (t : Target) :
    (generateSelectorCandidatesRaw t).Pairwise (fun a b => b.score < a.score) := by
  have hmaster : ([(0.95 : ℚ), 0.90, 0.85, 0.80, 0.70, 0.50] : List ℚ).Pairwise
      (fun a b => b < a) := by
    norm_num [List.pairwise_cons]
  have hsub := List.Pairwise.sublist (generateSelectorCandidatesRaw_scores_sublist t) hmaster
  exact (List.pairwise_map).mp hsub

lemma generateSelectorCandidates_eq_raw (t : Target) :
    generateSelectorCandidates t = generateSelectorCandidatesRaw t :=
  sortByScoreDesc_eq_self _ _ (generateSelectorCandidatesRaw_pairwise t)

lemma generateSelectorCandidates_pairwise (t : Target) :
    (generateSelectorCandidates t).Pairwise (fun a b => b.score < a.score) := by
  rw [generateSelectorCandidates_eq_raw]
  exact generateSelectorCandidatesRaw_pairwise t

lemma find_desc_some {l : List SelectorCandidate} {θ : ℚ} {c : SelectorCandidate}
    (hl : l.Pairwise (fun a b => b.score < a.score))
    (hf : l.find? (fun d => decide (θ ≤ d.score)) = some c) :
    c ∈ l ∧ θ ≤ c.score ∧
      ∀ d ∈ l, θ ≤ d.score → d ≠ c → d.score < c.score := by
  induction l with
  | nil => simp at hf
  | cons x xs ih =>
    by_cases hx : θ ≤ x.score
    · rw [List.find?_cons_of_pos _ (by simpa using hx)] at hf
      obtain rfl : x = c := by simpa using hf
      refine ⟨by simp, hx, ?_⟩
      intro d hd _ hdne
      rcases List.mem_cons.mp hd with rfl | hd
      · exact absurd rfl hdne
      · exact (List.pairwise_cons.mp hl).1 d hd
    · rw [List.find?_cons_of_neg _ (by simpa using hx)] at hf
      obtain ⟨hc, hcθ, hmax⟩ := ih hl.of_cons hf
      refine ⟨List.mem_cons_of_mem _ hc, hcθ, ?_⟩
      intro d hd hdθ hdne
      rcases List.mem_cons.mp hd with rfl | hd
      · exact absurd hdθ hx
      · exact hmax d hd hdθ hdne

lemma pairwise_head_max {c : SelectorCandidate} {cs : List SelectorCandidate}
    (h : (c :: cs).Pairwise (fun a b => b.score < a.score)) :
    ∀ d ∈ c :: cs, d.score ≤ c.score := by
  intro d hd
  rcases List.mem_cons.mp hd with rfl | hd
  · exact le_refl _
  · exact le_of_lt ((List.pairwise_cons.mp h).1 d hd)

/-- C1. For every Target whose candidate list is non-empty, `ground`
returns the candidate with the strictly highest score among those whose
score is at least the configured `scoreThreshold`; if every candidate
scores below the threshold, it fails reporting the best score observed,
and 0 when there are no candidates at all. -/
theorem c1_ground_selects_best (θ : ℚ) (t : Target) :
    (∀ c, ground θ t = .ok c →
        c ∈ generateSelectorCandidates t ∧ θ ≤ c.score ∧
        ∀ d ∈ generateSelectorCandidates t, θ ≤ d.score → d ≠ c → d.score < c.score) ∧
    ((∃ d ∈ generateSelectorCandidates t, θ ≤ d.score) →
        ∃ c, ground θ t = .ok c) ∧
    ((∀ d ∈ generateSelectorCandidates t, d.score < θ) →
        ∃ e, ground θ t = .error e ∧
          (generateSelectorCandidates t = [] → e.bestScore = 0) ∧
          (generateSelectorCandidates t ≠ [] →
            e.bestScore ∈ (generateSelectorCandidates t).map (fun c => c.score) ∧
            ∀ d ∈ generateSelectorCandidates t, d.score ≤ e.bestScore)) := by
  have hpair := generateSelectorCandidates_pairwise t
  rcases hfind : (generateSelectorCandidates t).find? (fun d => decide (θ ≤ d.score))
    with _ | c
  · have hnone : ∀ d ∈ generateSelectorCandidates t, ¬ θ ≤ d.score := by
      intro d hd
      have := List.find?_eq_none.mp hfind d hd
      simpa using this
    have hgr : ground θ t = .error ⟨match generateSelectorCandidates t with
        | [] => 0 | c :: _ => c.score⟩ := by
      simp only [ground, hfind]
    refine ⟨?_, ?_, ?_⟩
    · intro c hc
      rw [hgr] at hc
      exact Except.noConfusion hc
    · rintro ⟨d, hd, hdθ⟩
      exact absurd hdθ (hnone d hd)
    · intro _
      refine ⟨_, hgr, ?_, ?_⟩
      · intro hnil
        simp only [hnil]
      · intro hne
        rcases hL : generateSelectorCandidates t with _ | ⟨c, cs⟩
        · exact absurd hL hne
        · rw [hL] at hpair
          refine ⟨?_, ?_⟩
          · show c.score ∈ List.map (fun c => c.score) (c :: cs)
            exact List.mem_map_of_mem _ (List.mem_cons_self c cs)
          · intro d hd
            show d.score ≤ c.score
            exact pairwise_head_max hpair d hd
  · have hsome := find_desc_some hpair hfind
    refine ⟨?_, ?_, ?_⟩
    · intro c' hc'
      simp only [ground, hfind, Except.ok.injEq] at hc'
      exact hc' ▸ hsome
    · intro _
      exact ⟨c, by simp only [ground, hfind]⟩
    · intro hall
      exact absurd hsome.2.1 (not_le.mpr (hall c hsome.1))

/-- A concrete Target for the C1 witness: role and name hints present. -/
def c1Target : Target :=
  { key := "submit", role := some "button", name := some "Submit" }

lemma c1Target_candidates :
    generateSelectorCandidates c1Target =
      [{ selector := "getByRole(\x27button\x27, \x7b name: \x27Submit\x27 \x7d)",
         method := "getByRole", score := 0.95 },
       { selector := "button:has-text(\"Submit\")",
         method := "structural-css", score := 0.50 }] := by
  rw [generateSelectorCandidates_eq_raw]
  simp [generateSelectorCandidatesRaw, generateStructuralSelector, jsTruthy, jsStr, c1Target]

theorem c1_ground_selects_best_witness :
    ∃ c, ground 0.8 c1Target = .ok c ∧ (0.8 : ℚ) ≤ c.score := by
  have h := c1_ground_selects_best 0.8 c1Target
  obtain ⟨c, hok⟩ := h.2.1
    ⟨{ selector := "getByRole(\x27button\x27, \x7b name: \x27Submit\x27 \x7d)",
       method := "getByRole", score := 0.95 },
     by rw [c1Target_candidates]; exact List.mem_cons_self _ _,
     by norm_num⟩
  exact ⟨c, hok, (h.1 c hok).2.1⟩

/-- C4. `validate` raises distinguishable errors for its three checks:
more than one match raises the uniqueness error carrying the match count
(the `AmbiguousSelector` case), zero matches raises the uniqueness error
carrying 0 (the `ElementNotFound` case), a unique hidden match raises the
visibility error, and a unique visible but disabled match raises the
enabled-state error; all these error values are pairwise distinct. -/
theorem c4_validate_distinct_errors (st : LocatorState) :
    (1 < st.count → validate st = .error (.countMismatch st.count)) ∧
    (st.count = 0 → validate st = .error (.countMismatch 0)) ∧
    (st.count = 1 → st.visible = false → validate st = .error .notVisible) ∧
    (st.count = 1 → st.visible = true → st.enabled = false →
      validate st = .error .notEnabled) ∧
    (∀ n, 1 < n →
      ValidateError.countMismatch n ≠ .countMismatch 0 ∧
      ValidateError.countMismatch n ≠ .notVisible ∧
      ValidateError.countMismatch n ≠ .notEnabled ∧
      ValidateError.countMismatch 0 ≠ .notVisible ∧
      ValidateError.countMismatch 0 ≠ .notEnabled ∧
      ValidateError.notVisible ≠ .notEnabled) := by
  refine ⟨?_, ?_, ?_, ?_, ?_⟩
  · intro h
    simp [validate, show st.count ≠ 1 by omega]
  · intro h
    simp [validate, h]
  · intro h hv
    simp [validate, h, hv]
  · intro h hv he
    simp [validate, h, hv, he]
  · intro n hn
    refine ⟨by simp; omega, by simp, by simp, by simp, by simp, by simp⟩

theorem c4_validate_distinct_errors_witness :
    validate { count := 2, visible := true, enabled := true } =
        .error (.countMismatch 2) ∧
    validate { count := 0, visible := true, enabled := true } =
        .error (.countMismatch 0) ∧
    validate { count := 1, visible := false, enabled := true } =
        .error .notVisible ∧
    validate { count := 1, visible := true, enabled := false } =
        .error .notEnabled ∧
    ValidateError.countMismatch 2 ≠ .countMismatch 0 := by
  refine ⟨(c4_validate_distinct_errors _).1 (by decide),
    (c4_validate_distinct_errors _).2.1 rfl,
    (c4_validate_distinct_errors _).2.2.1 rfl rfl,
    (c4_validate_distinct_errors _).2.2.2.1 rfl rfl rfl,
    ((c4_validate_distinct_errors { count := 2, visible := true, enabled := true }).2.2.2.2
      2 (by decide)).1⟩

/-- C5 counterexample: when the first attempt of `safeClick` fails and the
single recovery attempt fails too, the error that propagates is the
recovery attempt's error, not the original first-attempt error. -/
theorem c5_counterexample :
    (safeClickRun true
        { firstError := some "ElementNotFound", healError := some "TimeoutError" }).1 =
      .error "TimeoutError" ∧
    ("TimeoutError" : String) ≠ "ElementNotFound" :=
  ⟨rfl, by decide⟩

/-- C5 (amended). For every `safeClick`/`safeFill` invocation whose first
validation-plus-interaction attempt fails, exactly one bounded recovery
attempt is made, and if that single retry also fails, the error raised by
the recovery attempt propagates to the caller (the original first-attempt
error is discarded); if the retry succeeds the call returns normally. -/
theorem c5_single_retry_propagates_heal_error (w : HealWorld) (e : String)
    (h : w.firstError = some e) :
    ((safeClickRun true w).2 = 1 ∧
      (w.healError = none → (safeClickRun true w).1 = .ok ()) ∧
      (∀ e2, w.healError = some e2 → (safeClickRun true w).1 = .error e2)) ∧
    (∀ value,
      (safeFillRun true value w).2 = 1 ∧
      (w.healError = none → (safeFillRun true value w).1 = .ok ()) ∧
      (∀ e2, w.healError = some e2 → (safeFillRun true value w).1 = .error e2)) := by
  refine ⟨⟨?_, ?_, ?_⟩, ?_⟩
  · simp [safeClickRun, h]
  · intro hh
    simp [safeClickRun, h, autoHealClickRun, hh]
  · intro e2 hh
    simp [safeClickRun, h, autoHealClickRun, hh]
  · intro value
    refine ⟨?_, ?_, ?_⟩
    · simp [safeFillRun, h]
    · intro hh
      simp [safeFillRun, h, autoHealFillRun, hh]
    · intro e2 hh
      simp [safeFillRun, h, autoHealFillRun, hh]

theorem c5_single_retry_propagates_heal_error_witness :
    (safeClickRun true { firstError := some "v-error", healError := some "t-error" }).2 = 1 ∧
    (safeClickRun true { firstError := some "v-error", healError := some "t-error" }).1 =
      .error "t-error" := by
  have h := c5_single_retry_propagates_heal_error
    { firstError := some "v-error", healError := some "t-error" } "v-error" rfl
  exact ⟨h.1.1, h.1.2.2 "t-error" rfl⟩

/-- A Target with an explicit role+name hint, used to refute C6. -/
def c6Target : Target :=
  { key := "save", role := some "button", name := some "Save" }

/-- C6 counterexample: a Target whose role+name hint yields an explicit
candidate nevertheless also receives a structural-css candidate. -/
theorem c6_counterexample :
    (∃ c ∈ generateSelectorCandidates c6Target, c.method = "getByRole") ∧
    ∃ c ∈ generateSelectorCandidates c6Target, c.method = "structural-css" := by
  constructor
  · refine ⟨{ selector := "getByRole(\x27button\x27, \x7b name: \x27Save\x27 \x7d)",
              method := "getByRole", score := 0.95 }, ?_, rfl⟩
    rw [generateSelectorCandidates_eq_raw]
    simp [generateSelectorCandidatesRaw, generateStructuralSelector, jsTruthy, jsStr,
      c6Target]
  · refine ⟨{ selector := "button:has-text(\"Save\")",
              method := "structural-css", score := 0.50 }, ?_, rfl⟩
    rw [generateSelectorCandidates_eq_raw]
    simp [generateSelectorCandidatesRaw, generateStructuralSelector, jsTruthy, jsStr,
      c6Target]

/-- C6 (amended). The structural-css candidate is generated exactly when
the Target has a truthy `role` hint, independently of whether any explicit
hint yields a candidate. -/
theorem c6_structural_iff_role (t : Target) :
    (∃ c ∈ generateSelectorCandidates t, c.method = "structural-css") ↔
      jsTruthy t.role = true := by
  rw [generateSelectorCandidates_eq_raw]
  unfold generateSelectorCandidatesRaw generateStructuralSelector
  cases h1 : jsTruthy t.role <;> cases h2 : jsTruthy t.name <;>
    cases h3 : jsTruthy t.label <;> cases h4 : jsTruthy t.placeholder <;>
    cases h5 : jsTruthy t.testId <;> cases h6 : jsTruthy t.fallback <;>
    simp_all

/-- C10. Because `enableAutoHeal` is computed as
`options.enableAutoHeal || true`, every constructed instance has auto-heal
enabled — including when the option is explicitly `false` — and therefore
whenever the first attempt of `safeClick`/`safeFill` fails, the auto-heal
branch is taken (the direct-rethrow branch is unreachable). -/
theorem c10_autoheal_always_on :
    (∀ o : Option Bool, enableAutoHealInit o = true) ∧
    (∀ (o : Option Bool) (w : HealWorld) (e : String), w.firstError = some e →
      safeClickRun (enableAutoHealInit o) w = (autoHealClickRun w, 1) ∧
      ∀ value, safeFillRun (enableAutoHealInit o) value w = (autoHealFillRun value w, 1)) := by
  have htrue : ∀ o : Option Bool, enableAutoHealInit o = true := by
    intro o
    cases o with
    | none => rfl
    | some b => cases b <;> rfl
  refine ⟨htrue, ?_⟩
  intro o w e he
  rw [htrue o]
  exact ⟨by simp [safeClickRun, he], fun value => by simp [safeFillRun, he]⟩

theorem c10_autoheal_always_on_witness :
    enableAutoHealInit (some false) = true ∧
    safeClickRun (enableAutoHealInit (some false))
        { firstError := some "boom", healError := none } = (.ok (), 1) := by
  refine ⟨c10_autoheal_always_on.1 (some false), ?_⟩
  rw [(c10_autoheal_always_on.2 (some false)
    { firstError := some "boom", healError := none } "boom" rfl).1]
  rfl

/-! ### The per-environment classification (C2) -/

lemma getLastD_mem_cons {α : Type} (l : List α) (a : α) : l.getLastD a ∈ a :: l := by
  induction l generalizing a with
  | nil => simp [List.getLastD]
  | cons b bs ih =>
    rw [List.getLastD_cons]
    exact List.mem_cons_of_mem a (ih b)

/-- C2. For every non-empty attempt sequence of a (testName, environment)
pair whose statuses range over `passed`/`failed`/`flaky`/`unknown`: any
explicit flaky marker forces the classification `flaky`; otherwise with
zero retries the single status is mapped 1:1; otherwise first=failed with
last=passed gives `flaky`, first=failed with last=failed gives `failed`,
and in all remaining cases the last status is used directly. -/
theorem c2_processTest_classification (first : String) (rest : List String)
    (hdom : ∀ s ∈ first :: rest,
      s = "passed" ∨ s = "failed" ∨ s = "flaky" ∨ s = "unknown") :
    ((first :: rest).any (fun r => r == "flaky") = true →
        processTestStatus (first :: rest) = some "flaky") ∧
    ((first :: rest).any (fun r => r == "flaky") = false →
      (rest = [] → processTestStatus (first :: rest) = some first) ∧
      (rest ≠ [] →
        (first = "failed" → rest.getLastD first = "passed" →
            processTestStatus (first :: rest) = some "flaky") ∧
        (first = "failed" → rest.getLastD first = "failed" →
            processTestStatus (first :: rest) = some "failed") ∧
        (¬(first = "failed" ∧
            (rest.getLastD first = "passed" ∨ rest.getLastD first = "failed")) →
            processTestStatus (first :: rest) = some (rest.getLastD first)))) := by
  constructor
  · intro hany
    simp only [processTestStatus]
    rw [if_pos hany]
  · intro hnone
    have hLmem : rest.getLastD first ∈ first :: rest := getLastD_mem_cons rest first
    have hLdom := hdom _ hLmem
    have hLflaky : rest.getLastD first ≠ "flaky" := by
      intro hF
      have h2 := (List.any_eq_false.mp hnone) _ hLmem
      rw [hF] at h2
      simp at h2
    constructor
    · rintro rfl
      rcases hdom first (by simp) with rfl | rfl | rfl | rfl
      · decide
      · decide
      · exact absurd hnone (by decide)
      · decide
    · intro hne
      have hpos : 0 < rest.length := List.length_pos.mpr hne
      refine ⟨?_, ?_, ?_⟩
      · intro hfail hL
        subst hfail
        simp only [processTestStatus]
        rw [if_neg (by simp [hnone])]
        rw [if_pos hpos]
        simp [-List.getLastD_eq_getLast?, hL]
      · intro hfail hL
        subst hfail
        simp only [processTestStatus]
        rw [if_neg (by simp [hnone])]
        rw [if_pos hpos]
        simp [-List.getLastD_eq_getLast?, hL]
      · intro hnot
        rcases hLdom with hL | hL | hL | hL
        · have hf : first ≠ "failed" := fun h => hnot ⟨h, Or.inl hL⟩
          simp only [processTestStatus]
          rw [if_neg (by simp [hnone])]
          rw [if_pos hpos]
          simp [-List.getLastD_eq_getLast?, hL, hf]
        · have hf : first ≠ "failed" := fun h => hnot ⟨h, Or.inr hL⟩
          simp only [processTestStatus]
          rw [if_neg (by simp [hnone])]
          rw [if_pos hpos]
          simp [-List.getLastD_eq_getLast?, hL, hf]
        · exact absurd hL hLflaky
        · simp only [processTestStatus]
          rw [if_neg (by simp [hnone])]
          rw [if_pos hpos]
          simp [-List.getLastD_eq_getLast?, hL]

theorem c2_processTest_classification_witness :
    processTestStatus ["failed", "passed"] = some "flaky" ∧
    processTestStatus ["passed"] = some "passed" ∧
    processTestStatus ["passed", "flaky"] = some "flaky" := by
  have h1 := c2_processTest_classification "failed" ["passed"] (by decide)
  have h2 := c2_processTest_classification "passed" [] (by decide)
  have h3 := c2_processTest_classification "passed" ["flaky"] (by decide)
  exact ⟨((h1.2 (by decide)).2 (by decide)).1 rfl rfl,
    (h2.2 (by decide)).1 rfl,
    h3.1 (by decide)⟩

/-! ### Cross-environment consolidation (C3, C9) -/

/-- The three regular classifications the spec's dominance rule ranges
over. -/
def regularStatus (s : String) : Prop :=
  s = "passed" ∨ s = "failed" ∨ s = "flaky"

instance (s : String) : Decidable (regularStatus s) := by
  unfold regularStatus
  infer_instance

/-- `regularStatus` lifted to the optional classification of one
environment (`none` means the entry was skipped). -/
def regularStatusOpt : Option String → Prop
  | none => True
  | some s => regularStatus s

instance (o : Option String) : Decidable (regularStatusOpt o) := by
  cases o <;> (unfold regularStatusOpt; infer_instance)

lemma mergeNested_regular {c a : String} (hc : regularStatus c)
    (ha : regularStatus a) : regularStatus (mergeNested c a) := by
  rcases hc with rfl | rfl | rfl <;> rcases ha with rfl | rfl | rfl <;> decide

lemma mergeDirect_regular {c a : String} (hc : regularStatus c)
    (ha : regularStatus a) : regularStatus (mergeDirect c a) := by
  rcases hc with rfl | rfl | rfl <;> rcases ha with rfl | rfl | rfl <;> decide

lemma consolidateNested_spec : ∀ (cs : List String) (c : String),
    regularStatus c → (∀ x ∈ cs, regularStatus x) →
    consolidateNested c cs =
      if "flaky" ∈ c :: cs then "flaky"
      else if "failed" ∈ c :: cs then "failed" else "passed" := by
  intro cs
  induction cs with
  | nil =>
    intro c hc _
    rcases hc with rfl | rfl | rfl <;> simp [consolidateNested]
  | cons a as ih =>
    intro c hc hcs
    have ha := hcs a (by simp)
    have has : ∀ x ∈ as, regularStatus x := fun x hx => hcs x (List.mem_cons_of_mem _ hx)
    have hstep : consolidateNested c (a :: as) = consolidateNested (mergeNested c a) as := rfl
    rw [hstep, ih _ (mergeNested_regular hc ha) has]
    rcases hc with rfl | rfl | rfl <;> rcases ha with rfl | rfl | rfl <;>
      simp [mergeNested, List.mem_cons]

lemma consolidateDirect_spec : ∀ (cs : List String) (c : String),
    regularStatus c → (∀ x ∈ cs, regularStatus x) →
    consolidateDirect c cs =
      if "failed" ∈ c :: cs then "failed"
      else if "flaky" ∈ c :: cs then "flaky" else "passed" := by
  intro cs
  induction cs with
  | nil =>
    intro c hc _
    rcases hc with rfl | rfl | rfl <;> simp [consolidateDirect]
  | cons a as ih =>
    intro c hc hcs
    have ha := hcs a (by simp)
    have has : ∀ x ∈ as, regularStatus x := fun x hx => hcs x (List.mem_cons_of_mem _ hx)
    have hstep : consolidateDirect c (a :: as) = consolidateDirect (mergeDirect c a) as := rfl
    rw [hstep, ih _ (mergeDirect_regular hc ha) has]
    rcases hc with rfl | rfl | rfl <;> rcases ha with rfl | rfl | rfl <;>
      simp [mergeDirect, List.mem_cons]

lemma consolidatePart8_eq_getLastD : ∀ (seqs : List (List String)) (acc : String),
    seqs.foldl (fun acc seq => (part8TestStatus seq).getD acc) acc =
      (seqs.filterMap part8TestStatus).getLastD acc := by
  intro seqs
  induction seqs with
  | nil => intro acc; rfl
  | cons s ss ih =>
    intro acc
    rw [List.foldl_cons, List.filterMap_cons]
    cases h : part8TestStatus s with
    | none => exact ih acc
    | some v => rw [List.getLastD_cons]; exact ih v

/-- C3 counterexample: through the direct-spec consolidation path, a flaky
environment followed by a failed environment consolidates to `failed`
(the claim demands `flaky` whenever any environment is flaky); and in the
part_008 consolidation a flaky environment followed by a passed one
consolidates to `passed`. -/
theorem c3_counterexample :
    consolidateTestsDirect [["failed", "passed"], ["failed", "failed"]] = some "failed" ∧
    some "failed" ≠ some "flaky" ∧
    consolidatePart8 [["flaky"], ["passed"]] = "passed" := by
  refine ⟨by decide, by decide, by decide⟩

/-- C3 (amended). The dominance order `flaky > failed > passed` holds for
the nested-suite consolidation path of `analyzeTestResults`; in the
direct-spec path the order is `failed > flaky > passed` instead (a failed
environment overrides a flaky one); and in part_008's consolidation the
last environment that yields any classification simply overwrites the
previous ones. -/
theorem c3_consolidation_orders :
    (∀ (cs : List String) (c : String), regularStatus c →
        (∀ x ∈ cs, regularStatus x) →
        consolidateNested c cs =
          if "flaky" ∈ c :: cs then "flaky"
          else if "failed" ∈ c :: cs then "failed" else "passed") ∧
    (∀ (cs : List String) (c : String), regularStatus c →
        (∀ x ∈ cs, regularStatus x) →
        consolidateDirect c cs =
          if "failed" ∈ c :: cs then "failed"
          else if "flaky" ∈ c :: cs then "flaky" else "passed") ∧
    (∀ seqs : List (List String),
        consolidatePart8 seqs = (seqs.filterMap part8TestStatus).getLastD "unknown") :=
  ⟨consolidateNested_spec, consolidateDirect_spec,
    fun seqs => consolidatePart8_eq_getLastD seqs "unknown"⟩

theorem c3_consolidation_orders_witness :
    consolidateNested "flaky" ["failed"] = "flaky" ∧
    consolidateDirect "flaky" ["failed"] = "failed" ∧
    consolidatePart8 [["flaky"], ["passed"]] = "passed" := by
  refine ⟨?_, ?_, ?_⟩
  · rw [c3_consolidation_orders.1 ["failed"] "flaky" (by decide) (by decide)]
    decide
  · rw [c3_consolidation_orders.2.1 ["failed"] "flaky" (by decide) (by decide)]
    decide
  · rw [c3_consolidation_orders.2.2 [["flaky"], ["passed"]]]
    decide

/-- C9 counterexample: the same two per-environment record sequences (one
passed attempt in one environment, one unknown-status attempt in another)
consolidate differently depending on the order in which they are
supplied, so the reducer's output is not order-independent. -/
theorem c9_counterexample :
    ([["passed"], ["unknown"]] : List (List String)).Perm [["unknown"], ["passed"]] ∧
    consolidateTests [["passed"], ["unknown"]] = some "passed" ∧
    consolidateTests [["unknown"], ["passed"]] = some "unknown" :=
  ⟨List.Perm.swap _ _ _, by decide, by decide⟩

/-- C9 (amended). The reduction is a pure function of its input (re-running
it over the same supplied list yields the identical result), and the
consolidated classification is invariant under permutation of the supplied
per-environment sequences provided every per-environment classification is
one of `passed`/`failed`/`flaky`; a degraded `unknown` classification can
make the outcome depend on the supply order. -/
theorem c9_order_invariant_on_regular (s1 s2 : List (List String))
    (hp : s1.Perm s2)
    (hdom : ∀ seq ∈ s1, regularStatusOpt (processTestStatus seq)) :
    consolidateTests s1 = consolidateTests s2 := by
  have hl : (s1.filterMap processTestStatus).Perm (s2.filterMap processTestStatus) :=
    hp.filterMap _
  have hdom1 : ∀ x ∈ s1.filterMap processTestStatus, regularStatus x := by
    intro x hx
    obtain ⟨seq, hseq, hst⟩ := List.mem_filterMap.mp hx
    have hr := hdom seq hseq
    rw [hst] at hr
    exact hr
  rcases h1 : s1.filterMap processTestStatus with _ | ⟨c1, cs1⟩ <;>
    rcases h2 : s2.filterMap processTestStatus with _ | ⟨c2, cs2⟩ <;>
    rw [h1, h2] at hl
  · simp [consolidateTests, h1, h2]
  · exact absurd hl (by simp)
  · exact absurd hl (by simp)
  · rw [h1] at hdom1
    have hc1 : regularStatus c1 := hdom1 c1 (by simp)
    have hcs1 : ∀ x ∈ cs1, regularStatus x :=
      fun x hx => hdom1 x (List.mem_cons_of_mem _ hx)
    have hc2 : regularStatus c2 := hdom1 c2 (hl.mem_iff.mpr (by simp))
    have hcs2 : ∀ x ∈ cs2, regularStatus x :=
      fun x hx => hdom1 x (hl.mem_iff.mpr (List.mem_cons_of_mem _ hx))
    simp only [consolidateTests, h1, h2]
    rw [consolidateNested_spec cs1 c1 hc1 hcs1, consolidateNested_spec cs2 c2 hc2 hcs2]
    rw [if_congr hl.mem_iff rfl (if_congr hl.mem_iff rfl rfl)]

theorem c9_order_invariant_on_regular_witness :
    consolidateTests [["passed"], ["failed", "passed"]] =
      consolidateTests [["failed", "passed"], ["passed"]] :=
  c9_order_invariant_on_regular _ _ (List.Perm.swap _ _ _) (by decide)

/-! ### Scorer bounds (C7, C8) -/

/-- A page on which every selector matches exactly one visible, enabled
element without throwing. -/
def c7Page : PageModel :=
  { throws := fun _ => false, count := fun _ => 1,
    visible := fun _ => true, enabled := fun _ => true }

/-- A page on which no selector matches anything. -/
def c7PageEmpty : PageModel :=
  { throws := fun _ => false, count := fun _ => 0,
    visible := fun _ => true, enabled := fun _ => true }

/-- C7 counterexample: a semantic selector with a unique visible, enabled
match receives the 0.1 bonus on top of the full 1.0 and scores 1.1,
outside the claimed interval [0, 1]. -/
theorem c7_counterexample :
    (scoreSelector c7Page "getByRole(\x27button\x27)").score = 1.1 ∧
    ¬ (scoreSelector c7Page "getByRole(\x27button\x27)").score ≤ 1 := by
  have hsem : (strIncludes "getByRole(\x27button\x27)" "getByRole" ||
      strIncludes "getByRole(\x27button\x27)" "getByLabel") = true := by decide
  constructor
  · simp only [scoreSelector, c7Page, hsem]
    norm_num
  · simp only [scoreSelector, c7Page, hsem]
    norm_num

/-- C7 (amended). The score `SelectorUtils.scoreSelectors` assigns to a
candidate always lies in the closed interval [0, 1.1] — the semantic
bonus can push a unique match to 1.1, beyond the documented bound 1 — and
a selector matching zero elements is disqualified with score exactly 0. -/
theorem c7_score_bounds (pg : PageModel) (sel : String) :
    0 ≤ (scoreSelector pg sel).score ∧
    (scoreSelector pg sel).score ≤ 1.1 ∧
    (pg.count sel = 0 → (scoreSelector pg sel).score = 0) := by
  cases ht : pg.throws sel
  · by_cases hc0 : pg.count sel = 0
    · refine ⟨?_, ?_, fun _ => ?_⟩ <;> simp [scoreSelector, ht, hc0] <;> norm_num
    · by_cases hc1 : 1 < pg.count sel
      · refine ⟨?_, ?_, fun h0 => absurd h0 hc0⟩ <;>
          simp [scoreSelector, ht, hc0, hc1] <;> norm_num
      · cases hv : pg.visible sel <;> cases he : pg.enabled sel <;>
          cases hs : (strIncludes sel "getByRole" || strIncludes sel "getByLabel") <;>
          refine ⟨?_, ?_, fun h0 => absurd h0 hc0⟩ <;>
          simp [scoreSelector, ht, hc0, hc1, hv, he, hs] <;>
          norm_num [max_def]
  · refine ⟨?_, ?_, fun _ => ?_⟩ <;> simp [scoreSelector, ht] <;> norm_num

theorem c7_score_bounds_witness :
    (scoreSelector c7PageEmpty "div.menu").score = 0 ∧
    0 ≤ (scoreSelector c7Page "getByRole(\x27button\x27)").score :=
  ⟨(c7_score_bounds c7PageEmpty "div.menu").2.2 rfl,
    (c7_score_bounds c7Page "getByRole(\x27button\x27)").1⟩

lemma jsRound_100 : jsRound (100 : ℚ) = 100 := by
  unfold jsRound
  rw [Int.floor_eq_iff]
  constructor <;> norm_num

lemma clamp_round_nonneg (q : ℚ) : 0 ≤ max 0 ((jsRound (q * 10) : ℚ) / 10) :=
  le_max_left _ _

lemma clamp_round_le_ten (q : ℚ) (hq : q ≤ 10) :
    max 0 ((jsRound (q * 10) : ℚ) / 10) ≤ 10 := by
  have h1 : jsRound (q * 10) ≤ 100 := by
    calc jsRound (q * 10) ≤ jsRound 100 := Int.floor_le_floor (by linarith)
      _ = 100 := jsRound_100
  apply max_le (by norm_num)
  rw [div_le_iff₀ (by norm_num)]
  calc ((jsRound (q * 10) : ℚ)) ≤ (100 : ℚ) := by exact_mod_cast h1
    _ = 10 * 10 := by norm_num

lemma clamp_round_mono (q r : ℚ) (h : q ≤ r) :
    max 0 ((jsRound (q * 10) : ℚ) / 10) ≤ max 0 ((jsRound (r * 10) : ℚ) / 10) := by
  apply max_le_max (le_refl 0)
  have h1 : jsRound (q * 10) ≤ jsRound (r * 10) := Int.floor_le_floor (by linarith)
  have h2 : ((jsRound (q * 10) : ℚ)) ≤ (jsRound (r * 10) : ℚ) := by exact_mod_cast h1
  linarith

/-- C8. The heuristic selector-quality scores stay within the declared
reporting bounds [0, 10], are never negative, and the flakiness analyzer's
score is monotonically non-increasing in the number of recorded attempts
(hence in the retry count) with all other inputs held equal; the MCP
reporter's per-selector score does not depend on a retry count at all and
is likewise clamped into [0, 10]. -/
theorem c8_selector_score_bounds :
    (∀ (failed : Bool) (numResults : ℕ) (complexTitle : Bool),
      0 ≤ analyzerSelectorScore failed numResults complexTitle ∧
      analyzerSelectorScore failed numResults complexTitle ≤ 10) ∧
    (∀ (failed : Bool) (complexTitle : Bool) (n n' : ℕ), n ≤ n' →
      analyzerSelectorScore failed n' complexTitle ≤
        analyzerSelectorScore failed n complexTitle) ∧
    (∀ (selector status : String),
      0 ≤ reporterSelectorScore selector status ∧
      reporterSelectorScore selector status ≤ 10) := by
  refine ⟨?_, ?_, ?_⟩
  · intro f n c
    constructor
    · exact le_max_left _ _
    · simp only [analyzerSelectorScore]
      apply clamp_round_le_ten
      have ha : (0 : ℚ) ≤ ((n - 1 : ℕ) : ℚ) := Nat.cast_nonneg _
      split_ifs <;> linarith
  · intro f c n n' h
    simp only [analyzerSelectorScore]
    apply clamp_round_mono
    have ha : (0 : ℚ) ≤ ((n' - 1 : ℕ) : ℚ) := Nat.cast_nonneg _
    have hb : ((n - 1 : ℕ) : ℚ) ≤ ((n' - 1 : ℕ) : ℚ) := by
      exact_mod_cast Nat.sub_le_sub_right h 1
    split_ifs <;> linarith
  · intro sel st
    constructor
    · exact le_max_left _ _
    · simp only [reporterSelectorScore]
      exact max_le (by norm_num) (min_le_left _ _)

theorem c8_selector_score_bounds_witness :
    analyzerSelectorScore false 2 false ≤ analyzerSelectorScore false 1 false ∧
    0 ≤ analyzerSelectorScore true 3 true ∧
    reporterSelectorScore "[data-testid=\"cart\"]" "failed" ≤ 10 :=
  ⟨c8_selector_score_bounds.2.1 false false 1 2 (by norm_num),
    (c8_selector_score_bounds.1 true 3 true).1,
    (c8_selector_score_bounds.2.2 "[data-testid=\"cart\"]" "failed").2⟩
